import Mathlib

/-!
Verification development for a multi-tenant work-tracking web application
(organizations, teams, tasks, comments, attachments) with role-based task
visibility and a soft-delete-with-timed-purge task lifecycle.

The definitions below are a shallow embedding of the server controllers:

* `src/server/src/controllers/task.controller.ts`
* `src/server/src/controllers/org.controller.ts`
* `src/server/src/controllers/auth.controller.ts`
* `src/server/src/utils/auth.utils.ts`
* the background task-purge job (`purgeTaskById`, `purgeExpiredDeletedTasks`,
  `safeDeleteFile`)

The relational store is modelled as lists of records (`DB`).  Prisma's
`findUnique`/`findFirst` become `List.find?`, `findMany` becomes
`List.filter`, `updateMany`/`update` become `List.map`, and `delete`/
`deleteMany` become `List.filter` with a negated predicate.  Handlers are
pure functions from a `DB` (plus request data and, where the code reads the
clock, an explicit `now : Nat` in milliseconds) to a response together with
the successor `DB`.  Result ordering (`orderBy`) and response-shape
`include`s are omitted: no property below depends on the order of returned
rows or on the joined display fields.  Secondary effects that the code logs
and swallows (assignment/invite emails) are likewise omitted.
-/

namespace Aio

/-- Organization-level role of a membership (`role` column). -/
inductive Role where
  | ADMIN
  | TEAM_LEAD
  | MEMBER
deriving Repr, DecidableEq

/-- Task status column (`CREATED → IN_PROGRESS → COMPLETED`). -/
inductive TaskStatus where
  | CREATED
  | IN_PROGRESS
  | COMPLETED
deriving Repr, DecidableEq

/-- An `OrganizationMember` row: the User×Organization join with a role and
an optional team. -/
structure Membership where
  id : String
  userId : String
  organizationId : String
  role : Role
  teamId : Option String
deriving Repr, DecidableEq

/-- A `Team` row (organization-scoped, one lead). -/
structure Team where
  id : String
  organizationId : String
  name : String
  leadUserId : String
deriving Repr, DecidableEq

/-- A `Task` row, including the soft-delete columns `deletedAt`/`deletedById`. -/
structure Task where
  id : String
  organizationId : String
  title : String
  description : Option String
  status : TaskStatus
  assigneeId : Option String
  supporterId : Option String
  tagId : Option String
  priority : String
  dueDate : Option Nat
  deletedAt : Option Nat
  deletedById : Option String
deriving Repr, DecidableEq

/-- A `TaskTeam` row: the denormalized link from a task to the teams of its
assignee/supporter. -/
structure TaskTeam where
  taskId : String
  teamId : String
deriving Repr, DecidableEq

/-- A `Comment` row. -/
structure Comment where
  id : String
  taskId : String
  userId : String
  content : String
deriving Repr, DecidableEq

/-- Attachment variant (`type` column). -/
inductive AttachmentType where
  | FILE
  | LINK
deriving Repr, DecidableEq

/-- An `Attachment` row (FILE or LINK variant). -/
structure Attachment where
  id : String
  taskId : String
  type : AttachmentType
  fileName : Option String
  filePath : Option String
  fileType : Option String
  url : Option String
deriving Repr, DecidableEq

/-- A `Tag` row. -/
structure Tag where
  id : String
  organizationId : String
  name : String
deriving Repr, DecidableEq

/-- An `Organization` row. -/
structure Organization where
  id : String
  name : String
  slug : String
deriving Repr, DecidableEq

/-- A `User` row with the OTP signup columns. -/
structure User where
  id : String
  email : String
  name : Option String
  passwordHash : String
  isVerified : Bool
  otp : Option String
  otpExpiresAt : Option Nat
deriving Repr, DecidableEq

/-- The relational store, as lists of rows. -/
structure DB where
  users : List User
  orgs : List Organization
  memberships : List Membership
  teams : List Team
  tasks : List Task
  taskTeams : List TaskTeam
  comments : List Comment
  attachments : List Attachment
  tags : List Tag
deriving Repr, DecidableEq

/-- HTTP-style result: a JSON payload with a status code, or an error status
with a message. -/
inductive Resp (α : Type) where
  | ok (status : Nat) (value : α) : Resp α
  | err (status : Nat) (msg : String) : Resp α
deriving Repr, DecidableEq

/-- JS truthiness of an optional string request field: present and not the
empty string. -/
def truthy : Option String → Bool
  | none => false
  | some s => s ≠ ""

/-- `x === '' ? null : x` — the normalisation applied to assignee/supporter
ids in `createTask`/`updateTask`. -/
def normEmpty : Option String → Option String
  | some "" => none
  | o => o

/-- `prisma.organizationMember.findUnique({ where: { userId_organizationId } })`. -/
def findMembership (db : DB) (userId organizationId : String) : Option Membership :=
  db.memberships.find? fun m => decide (m.userId = userId ∧ m.organizationId = organizationId)

/-- `getMembership` from org.controller.ts (same compound-key lookup). -/
def getMembership (db : DB) (userId organizationId : String) : Option Membership :=
  findMembership db userId organizationId

/-- `requireAdmin` from org.controller.ts: membership exists and is ADMIN. -/
def requireAdmin (db : DB) (userId organizationId : String) : Bool :=
  match getMembership db userId organizationId with
  | some m => m.role = Role.ADMIN
  | none => false

/-- `ensureTaskIsActive` from task.controller.ts: a task is active iff its
soft-delete flag is unset. -/
def ensureTaskIsActive (t : Task) : Bool :=
  t.deletedAt.isNone

/-! ### getTasks / getStats (task.controller.ts) -/

/-- The two values of the `view` query parameter. -/
inductive TaskView where
  | active
  | deleted
deriving Repr, DecidableEq

/-- `resolveTaskView`: anything other than `'deleted'` is the active view. -/
def resolveTaskView (v : Option String) : TaskView :=
  if v = some "deleted" then TaskView.deleted else TaskView.active

/-- Query parameters accepted by `getTasks`. -/
structure TasksQuery where
  organizationId : Option String
  status : Option TaskStatus
  assigneeId : Option String
  view : Option String
deriving Repr, DecidableEq

/-- The `deletedAt` clause of the `where` object: deleted view keeps rows
with `deletedAt ≠ null`, active view keeps rows with `deletedAt = null`. -/
def viewFilter (tv : TaskView) (t : Task) : Bool :=
  match tv with
  | TaskView.deleted => t.deletedAt.isSome
  | TaskView.active => t.deletedAt.isNone

/-- The `status` clause: applied only when a status is supplied and the view
is active. -/
def statusFilter (q : TasksQuery) (tv : TaskView) (t : Task) : Bool :=
  match q.status, tv with
  | some s, TaskView.active => t.status = s
  | _, _ => true

/-- The `assigneeId` clause: applied when the query parameter is truthy. -/
def assigneeFilter (q : TasksQuery) (t : Task) : Bool :=
  match q.assigneeId with
  | some a => if a = "" then true else t.assigneeId = some a
  | none => true

/-- The role-based `OR` visibility clause built for TEAM_LEAD/MEMBER callers:
assignee, supporter, or a `TaskTeam` link to the caller's team (the team
disjunct is only present when the membership has a team). -/
def activeScopeFilter (db : DB) (userId : String) (m : Membership) (t : Task) : Bool :=
  decide (t.assigneeId = some userId) || decide (t.supporterId = some userId) ||
    (match m.teamId with
     | some tid => db.taskTeams.any fun tt => decide (tt.taskId = t.id ∧ tt.teamId = tid)
     | none => false)

/-- The no-`organizationId` branch of `getTasks`: the caller's memberships
are loaded and the task list is scoped to those organizations only (for the
deleted view, only organizations where the caller is ADMIN).  No role-based
`OR` clause is added on this branch. -/
def getTasksAllOrgs (db : DB) (userId : String) (q : TasksQuery) (tv : TaskView) :
    Resp (List Task) :=
  let memberships := db.memberships.filter fun m => decide (m.userId = userId)
  let orgOk : Task → Bool :=
    match tv with
    | TaskView.deleted => fun t =>
        (memberships.filter fun m => decide (m.role = Role.ADMIN)).any fun m =>
          decide (m.organizationId = t.organizationId)
    | TaskView.active => fun t =>
        memberships.any fun m => decide (m.organizationId = t.organizationId)
  Resp.ok 200 (db.tasks.filter fun t =>
    orgOk t && viewFilter tv t && statusFilter q tv t && assigneeFilter q t)

/-- `getTasks` from task.controller.ts. -/
def getTasks (db : DB) (userId : String) (q : TasksQuery) : Resp (List Task) :=
  let tv := resolveTaskView q.view
  match q.organizationId with
  | some orgId =>
    if orgId = "" then getTasksAllOrgs db userId q tv
    else
      match findMembership db userId orgId with
      | none => Resp.err 403 "Access denied"
      | some m =>
        if tv = TaskView.deleted ∧ m.role ≠ Role.ADMIN then
          Resp.err 403 "Only admins can view recently deleted tasks"
        else
          let scope : Task → Bool := fun t =>
            if tv = TaskView.active ∧ (m.role = Role.TEAM_LEAD ∨ m.role = Role.MEMBER) then
              activeScopeFilter db userId m t
            else true
          Resp.ok 200 (db.tasks.filter fun t =>
            decide (t.organizationId = orgId) && scope t &&
              viewFilter tv t && statusFilter q tv t && assigneeFilter q t)
  | none => getTasksAllOrgs db userId q tv

/-- Payload of `getStats`. -/
structure Stats where
  created : Nat
  inProgress : Nat
  completed : Nat
  myTasks : Nat
  total : Nat
deriving Repr, DecidableEq

/-- The four `prisma.task.count` calls of `getStats` over a base `where`. -/
def mkStats (db : DB) (userId : String) (base : Task → Bool) : Stats :=
  let count : (Task → Bool) → Nat := fun extra =>
    (db.tasks.filter fun t => base t && extra t).length
  let created := count fun t => decide (t.status = TaskStatus.CREATED)
  let inProgress := count fun t => decide (t.status = TaskStatus.IN_PROGRESS)
  let completed := count fun t => decide (t.status = TaskStatus.COMPLETED)
  let myTasks := count fun t => decide (t.assigneeId = some userId)
  ⟨created, inProgress, completed, myTasks, created + inProgress + completed⟩

/-- The organization-scoped base `where` of `getStats`: non-deleted tasks of
the organization, with the role-based `OR` clause for TEAM_LEAD/MEMBER. -/
def statsWhere (db : DB) (userId orgId : String) (m : Membership) (t : Task) : Bool :=
  t.deletedAt.isNone && decide (t.organizationId = orgId) &&
    (if m.role = Role.TEAM_LEAD ∨ m.role = Role.MEMBER then
       activeScopeFilter db userId m t
     else true)

/-- The no-`organizationId` branch of `getStats`: non-deleted tasks of all
organizations the caller belongs to, with no role-based clause. -/
def getStatsAllOrgs (db : DB) (userId : String) : Resp Stats :=
  let memberships := db.memberships.filter fun m => decide (m.userId = userId)
  Resp.ok 200 (mkStats db userId fun t =>
    t.deletedAt.isNone &&
      (memberships.any fun m => decide (m.organizationId = t.organizationId)))

/-- `getStats` from task.controller.ts. -/
def getStats (db : DB) (userId : String) (organizationId : Option String) : Resp Stats :=
  match organizationId with
  | some orgId =>
    if orgId = "" then getStatsAllOrgs db userId
    else
      match findMembership db userId orgId with
      | none => Resp.err 403 "Access denied"
      | some m => Resp.ok 200 (mkStats db userId (statsWhere db userId orgId m))
  | none => getStatsAllOrgs db userId

/-! ### Task creation / mutation (task.controller.ts) -/

/-- `resolveTaskTeamContext`: validates the designated assignee (member of
the organization, not ADMIN, in a team) and optional supporter (distinct
from the assignee, member, not ADMIN), returning the team ids to link via
`TaskTeam` (assignee's team plus the supporter's team when different).
Failures are thrown `Error`s, modelled as `Except.error` with the message. -/
def resolveTaskTeamContext (db : DB) (organizationId assigneeId : String)
    (supporterId : Option String) : Except String (List String) :=
  match findMembership db assigneeId organizationId with
  | none => Except.error "Assignee is not a member of this organization"
  | some am =>
    if am.role = Role.ADMIN then
      Except.error "Admin users cannot be assigned as primary assignee"
    else
      match am.teamId with
      | none => Except.error "Primary assignee must belong to a team"
      | some atid =>
        match supporterId with
        | none => Except.ok [atid]
        | some sid =>
          if sid = assigneeId then
            Except.error "Supporter cannot be the same as primary assignee"
          else
            match findMembership db sid organizationId with
            | none => Except.error "Supporter is not a member of this organization"
            | some sm =>
              if sm.role = Role.ADMIN then
                Except.error "Admin users cannot be supporters"
              else
                match sm.teamId with
                | some stid => if stid = atid then Except.ok [atid] else Except.ok [atid, stid]
                | none => Except.ok [atid]

/-- Body of `createTask`. -/
structure CreateTaskBody where
  title : Option String
  description : Option String
  organizationId : Option String
  assigneeId : Option String
  supporterId : Option String
  dueDate : Option Nat
  priority : Option String
  tagId : Option String
deriving Repr, DecidableEq

/-- `createTask` from task.controller.ts.  `newId` stands for the id the
store generates for the created row.  A validation error thrown by
`resolveTaskTeamContext` is caught by the handler's generic catch block and
surfaced as a 500. -/
def createTask (db : DB) (userId : String) (b : CreateTaskBody) (newId : String) :
    Resp Task × DB :=
  let normalizedAssigneeId := normEmpty b.assigneeId
  let normalizedSupporterId := normEmpty b.supporterId
  if ¬ (truthy b.title ∧ truthy b.organizationId ∧ truthy b.tagId ∧ truthy normalizedAssigneeId) then
    (Resp.err 400 "Title, organization, tag and assignee are required", db)
  else
    match b.organizationId, b.tagId, normalizedAssigneeId with
    | some organizationId, some tagId, some assigneeId =>
      (match findMembership db userId organizationId with
       | none => (Resp.err 403 "Access denied", db)
       | some _ =>
         match db.tags.find? fun tg => decide (tg.id = tagId) with
         | none => (Resp.err 400 "Selected tag is invalid for this organization", db)
         | some tag =>
           if tag.organizationId ≠ organizationId then
             (Resp.err 400 "Selected tag is invalid for this organization", db)
           else
             match resolveTaskTeamContext db organizationId assigneeId normalizedSupporterId with
             | Except.error _ => (Resp.err 500 "Internal server error", db)
             | Except.ok teamIds =>
               let created : Task :=
                 { id := newId
                   organizationId := organizationId
                   title := (b.title.getD "")
                   description := b.description
                   status := TaskStatus.CREATED
                   assigneeId := some assigneeId
                   supporterId := normalizedSupporterId
                   tagId := some tagId
                   priority := match b.priority with
                     | some p => if p = "" then "LOW" else p
                     | none => "LOW"
                   dueDate := b.dueDate
                   deletedAt := none
                   deletedById := none }
               (Resp.ok 201 created,
                { db with
                    tasks := db.tasks ++ [created]
                    taskTeams := db.taskTeams ++ teamIds.map fun tid => ⟨newId, tid⟩ }))
    | _, _, _ => (Resp.err 400 "Title, organization, tag and assignee are required", db)

/-- `getTaskById` from task.controller.ts (read-only; the unchanged `DB` is
returned for uniformity with the mutating handlers). -/
def getTaskById (db : DB) (userId id : String) : Resp Task × DB :=
  match db.tasks.find? fun t => decide (t.id = id) with
  | none => (Resp.err 404 "Task not found", db)
  | some task =>
    if task.deletedAt.isSome then (Resp.err 404 "Task not found", db)
    else
      match findMembership db userId task.organizationId with
      | none => (Resp.err 403 "Access denied", db)
      | some _ => (Resp.ok 200 task, db)

/-- Body of `updateTask`.  An outer `none` models an absent (`undefined`)
field, i.e. "no update"; `some none` models an explicit JSON `null`. -/
structure UpdateTaskBody where
  title : Option String
  description : Option (Option String)
  status : Option TaskStatus
  assigneeId : Option (Option String)
  supporterId : Option (Option String)
  dueDate : Option (Option Nat)
  priority : Option String
  tagId : Option (Option String)
deriving Repr, DecidableEq

/-- The conditional spreads of `updateTask`'s `data` object applied to the
stored row. -/
def applyTaskUpdate (task : Task) (b : UpdateTaskBody)
    (hasAssigneeUpdate : Bool) (normalizedAssigneeId : Option String)
    (hasSupporterUpdate : Bool) (normalizedSupporterId : Option String) : Task :=
  { task with
      title := match b.title with
        | some s => if s = "" then task.title else s
        | none => task.title
      description := b.description.getD task.description
      status := b.status.getD task.status
      assigneeId := if hasAssigneeUpdate then normalizedAssigneeId else task.assigneeId
      supporterId := if hasSupporterUpdate then normalizedSupporterId else task.supporterId
      tagId := match b.tagId with
        | some v => v
        | none => task.tagId
      dueDate := b.dueDate.getD task.dueDate
      priority := match b.priority with
        | some p => if p = "" then task.priority else p
        | none => task.priority }

/-- `updateTask` from task.controller.ts, including the `TaskTeam` re-sync
inside the transaction.  A validation error thrown by
`resolveTaskTeamContext` is caught by the generic catch block (500). -/
def updateTask (db : DB) (userId id : String) (b : UpdateTaskBody) : Resp Task × DB :=
  let hasAssigneeUpdate := b.assigneeId.isSome
  let normalizedAssigneeId := normEmpty (b.assigneeId.getD none)
  let hasSupporterUpdate := b.supporterId.isSome
  let normalizedSupporterId := normEmpty (b.supporterId.getD none)
  match db.tasks.find? fun t => decide (t.id = id) with
  | none => (Resp.err 404 "Task not found", db)
  | some task =>
    if ¬ ensureTaskIsActive task then
      (Resp.err 400 "Task is in Recently Deleted", db)
    else
      match findMembership db userId task.organizationId with
      | none => (Resp.err 403 "Access denied", db)
      | some _ =>
        let tagCheck : Option (Resp Task) :=
          match b.tagId with
          | none => none
          | some v =>
            if ¬ truthy v then some (Resp.err 400 "Task tag is required")
            else
              match db.tags.find? fun tg => decide (some tg.id = v) with
              | none => some (Resp.err 400 "Selected tag is invalid for this organization")
              | some tag =>
                if tag.organizationId ≠ task.organizationId then
                  some (Resp.err 400 "Selected tag is invalid for this organization")
                else none
        match tagCheck with
        | some e => (e, db)
        | none =>
          let nextAssigneeId := if hasAssigneeUpdate then normalizedAssigneeId else task.assigneeId
          let nextSupporterId := if hasSupporterUpdate then normalizedSupporterId else task.supporterId
          match nextAssigneeId with
          | none => (Resp.err 400 "Primary assignee is required", db)
          | some nextAid =>
            match resolveTaskTeamContext db task.organizationId nextAid nextSupporterId with
            | Except.error _ => (Resp.err 500 "Internal server error", db)
            | Except.ok teamIds =>
              let updated := applyTaskUpdate task b hasAssigneeUpdate normalizedAssigneeId
                hasSupporterUpdate normalizedSupporterId
              (Resp.ok 200 updated,
               { db with
                   tasks := db.tasks.map fun t => if t.id = id then updated else t
                   taskTeams :=
                     (db.taskTeams.filter fun tt => decide (¬ tt.taskId = id)) ++
                       teamIds.map fun tid => ⟨id, tid⟩ })

/-- `deleteTask` from task.controller.ts: admin-only soft delete, setting
`deletedAt := now` and `deletedById := caller`. -/
def deleteTask (db : DB) (userId id : String) (now : Nat) : Resp String × DB :=
  match db.tasks.find? fun t => decide (t.id = id) with
  | none => (Resp.err 404 "Task not found", db)
  | some task =>
    if ¬ requireAdmin db userId task.organizationId then
      (Resp.err 403 "Only admins can delete tasks", db)
    else if task.deletedAt.isSome then
      (Resp.err 400 "Task already deleted", db)
    else
      (Resp.ok 200 "Task moved to Recently Deleted",
       { db with
           tasks := db.tasks.map fun t =>
             if t.id = id then { t with deletedAt := some now, deletedById := some userId }
             else t })

/-- `restoreTask` from task.controller.ts: admin-only reset of the two
soft-delete columns back to `null`. -/
def restoreTask (db : DB) (userId id : String) : Resp Task × DB :=
  match db.tasks.find? fun t => decide (t.id = id) with
  | none => (Resp.err 404 "Task not found", db)
  | some task =>
    if ¬ requireAdmin db userId task.organizationId then
      (Resp.err 403 "Only admins can restore tasks", db)
    else if task.deletedAt.isNone then
      (Resp.err 400 "Task is not deleted", db)
    else
      (Resp.ok 200 { task with deletedAt := none, deletedById := none },
       { db with
           tasks := db.tasks.map fun t =>
             if t.id = id then { t with deletedAt := none, deletedById := none }
             else t })

/-- `addComment` from task.controller.ts. -/
def addComment (db : DB) (userId id : String) (content : Option String)
    (newCommentId : String) : Resp Comment × DB :=
  if ¬ truthy content then (Resp.err 400 "Comment content is required", db)
  else
    match db.tasks.find? fun t => decide (t.id = id) with
    | none => (Resp.err 404 "Task not found", db)
    | some task =>
      if ¬ ensureTaskIsActive task then
        (Resp.err 400 "Task is in Recently Deleted", db)
      else
        match findMembership db userId task.organizationId with
        | none => (Resp.err 403 "Access denied", db)
        | some _ =>
          let comment : Comment := ⟨newCommentId, id, userId, content.getD ""⟩
          (Resp.ok 201 comment, { db with comments := db.comments ++ [comment] })

/-- Multer file metadata attached to an upload request. -/
structure FileInfo where
  originalname : String
  path : String
  mimetype : String
deriving Repr, DecidableEq

/-- `uploadAttachment` from task.controller.ts. -/
def uploadAttachment (db : DB) (userId id : String) (file : Option FileInfo)
    (newAttachmentId : String) : Resp Attachment × DB :=
  match file with
  | none => (Resp.err 400 "No file uploaded", db)
  | some f =>
    match db.tasks.find? fun t => decide (t.id = id) with
    | none => (Resp.err 404 "Task not found", db)
    | some task =>
      if ¬ ensureTaskIsActive task then
        (Resp.err 400 "Task is in Recently Deleted", db)
      else
        match findMembership db userId task.organizationId with
        | none => (Resp.err 403 "Access denied", db)
        | some _ =>
          let attachment : Attachment :=
            { id := newAttachmentId, taskId := id, type := AttachmentType.FILE
              fileName := some f.originalname, filePath := some f.path
              fileType := some f.mimetype, url := none }
          (Resp.ok 201 attachment, { db with attachments := db.attachments ++ [attachment] })

/-- `addLinkAttachment` from task.controller.ts. -/
def addLinkAttachment (db : DB) (userId id : String) (url fileName : Option String)
    (newAttachmentId : String) : Resp Attachment × DB :=
  if ¬ truthy url then (Resp.err 400 "URL is required", db)
  else
    match db.tasks.find? fun t => decide (t.id = id) with
    | none => (Resp.err 404 "Task not found", db)
    | some task =>
      if ¬ ensureTaskIsActive task then
        (Resp.err 400 "Task is in Recently Deleted", db)
      else
        match findMembership db userId task.organizationId with
        | none => (Resp.err 403 "Access denied", db)
        | some _ =>
          let attachment : Attachment :=
            { id := newAttachmentId, taskId := id, type := AttachmentType.LINK
              fileName := if truthy fileName then fileName else none
              filePath := none, fileType := none, url := url }
          (Resp.ok 201 attachment, { db with attachments := db.attachments ++ [attachment] })

/-- `deleteComment` from task.controller.ts.  The comment's parent task is
loaded via the `include`; a dangling foreign key would crash the handler
into its catch block, modelled as a 500. -/
def deleteComment (db : DB) (userId commentId : String) : Resp String × DB :=
  match db.comments.find? fun c => decide (c.id = commentId) with
  | none => (Resp.err 404 "Comment not found", db)
  | some comment =>
    match db.tasks.find? fun t => decide (t.id = comment.taskId) with
    | none => (Resp.err 500 "Internal server error", db)
    | some task =>
      if ¬ ensureTaskIsActive task then
        (Resp.err 400 "Task is in Recently Deleted", db)
      else
        match findMembership db userId task.organizationId with
        | none => (Resp.err 403 "Access denied", db)
        | some m =>
          if comment.userId ≠ userId ∧ m.role ≠ Role.ADMIN then
            (Resp.err 403 "You can only delete your own comments", db)
          else
            (Resp.ok 200 "Comment deleted successfully",
             { db with comments := db.comments.filter fun c => decide (¬ c.id = commentId) })

/-- `deleteAttachment` from task.controller.ts (admin-only). -/
def deleteAttachment (db : DB) (userId attachmentId : String) : Resp String × DB :=
  match db.attachments.find? fun a => decide (a.id = attachmentId) with
  | none => (Resp.err 404 "Attachment not found", db)
  | some attachment =>
    match db.tasks.find? fun t => decide (t.id = attachment.taskId) with
    | none => (Resp.err 500 "Internal server error", db)
    | some task =>
      if ¬ ensureTaskIsActive task then
        (Resp.err 400 "Task is in Recently Deleted", db)
      else
        match findMembership db userId task.organizationId with
        | none => (Resp.err 403 "Only admins can delete attachments", db)
        | some m =>
          if m.role ≠ Role.ADMIN then
            (Resp.err 403 "Only admins can delete attachments", db)
          else
            (Resp.ok 200 "Attachment deleted successfully",
             { db with attachments := db.attachments.filter fun a => decide (¬ a.id = attachmentId) })

/-! ### Organization / membership / team management (org.controller.ts) -/

/-- `getOrgById` from org.controller.ts (read-only).  The payload carries
the organization and the caller's role (`userRole`). -/
def getOrgById (db : DB) (userId id : String) : Resp (Organization × Role) × DB :=
  match getMembership db userId id with
  | none => (Resp.err 403 "Access denied", db)
  | some m =>
    match db.orgs.find? fun o => decide (o.id = id) with
    | none => (Resp.err 404 "Organization not found", db)
    | some org => (Resp.ok 200 (org, m.role), db)

/-- The number of ADMIN memberships of an organization
(`prisma.organizationMember.count({ where: { organizationId, role: 'ADMIN' } })`). -/
def adminCount (db : DB) (organizationId : String) : Nat :=
  (db.memberships.filter fun m =>
    decide (m.organizationId = organizationId ∧ m.role = Role.ADMIN)).length

/-- `updateMemberRole` from org.controller.ts: admin-only role change with
the "last admin" and "team lead still leading a team" protections; promoting
to ADMIN clears the member's `teamId`.  `role = none` models a missing or
unrecognised role string. -/
def updateMemberRole (db : DB) (requesterUserId organizationId memberId : String)
    (role : Option Role) : Resp Membership × DB :=
  match role with
  | none => (Resp.err 400 "Role must be ADMIN, TEAM_LEAD, or MEMBER", db)
  | some r =>
    if ¬ requireAdmin db requesterUserId organizationId then
      (Resp.err 403 "Only admins can update member roles", db)
    else
      match db.memberships.find? fun m => decide (m.id = memberId) with
      | none => (Resp.err 404 "Member not found in this organization", db)
      | some target =>
        if target.organizationId ≠ organizationId then
          (Resp.err 404 "Member not found in this organization", db)
        else if target.role = Role.ADMIN ∧ r ≠ Role.ADMIN ∧ adminCount db organizationId ≤ 1 then
          (Resp.err 400 "Cannot remove the last admin from this organization", db)
        else if target.role = Role.TEAM_LEAD ∧ r ≠ Role.TEAM_LEAD ∧
            db.teams.any (fun tm =>
              decide (tm.organizationId = organizationId ∧ tm.leadUserId = target.userId)) then
          (Resp.err 400 "Reassign this team lead before changing their role", db)
        else
          let updatedTarget :=
            { target with role := r, teamId := if r = Role.ADMIN then none else target.teamId }
          (Resp.ok 200 updatedTarget,
           { db with
               memberships := db.memberships.map fun m =>
                 if m.id = memberId then
                   { m with role := r, teamId := if r = Role.ADMIN then none else m.teamId }
                 else m })

/-- `Array.from(new Set(...))`: deduplication keeping first occurrences. -/
def dedupFirst : List String → List String
  | [] => []
  | x :: xs => x :: dedupFirst (xs.filter fun y => decide (y ≠ x))
termination_by l => l.length
decreasing_by
  simp only [List.length_cons]
  exact Nat.lt_succ_of_le (List.length_filter_le _ _)

/-- `validateTeamParticipants` from org.controller.ts: every participant
(including the lead) must be a member of the organization, the lead must
have the TEAM_LEAD role, and no participant may be an ADMIN.  Returns the
deduplicated participant user ids. -/
def validateTeamParticipants (db : DB) (organizationId leadUserId : String)
    (memberUserIds : List String) : Except String (List String) :=
  let withLead := dedupFirst memberUserIds
  let uniqueMemberIds := if leadUserId ∈ withLead then withLead else withLead ++ [leadUserId]
  let memberships := db.memberships.filter fun m =>
    decide (m.organizationId = organizationId ∧ m.userId ∈ uniqueMemberIds)
  if memberships.length ≠ uniqueMemberIds.length then
    Except.error "All team users must be members of this organization"
  else
    match memberships.find? fun m => decide (m.userId = leadUserId) with
    | none => Except.error "Team lead must have TEAM_LEAD role in this organization"
    | some leadMembership =>
      if leadMembership.role ≠ Role.TEAM_LEAD then
        Except.error "Team lead must have TEAM_LEAD role in this organization"
      else if memberships.any fun m => decide (m.role = Role.ADMIN) then
        Except.error "Admins cannot be assigned to teams"
      else
        Except.ok uniqueMemberIds

/-- `createTeam` from org.controller.ts.  An error thrown by
`validateTeamParticipants` inside the transaction is caught and surfaced as
a 400 with the thrown message.  The store-level unique-name constraint
(`P2002`) is not modelled. -/
def createTeam (db : DB) (requesterUserId organizationId : String)
    (name leadUserId : Option String) (memberUserIds : List String)
    (newTeamId : String) : Resp Team × DB :=
  if ¬ (truthy name ∧ truthy leadUserId) then
    (Resp.err 400 "Team name and leadUserId are required", db)
  else
    match name, leadUserId with
    | some nm, some lead =>
      if ¬ requireAdmin db requesterUserId organizationId then
        (Resp.err 403 "Only admins can create teams", db)
      else
        (match validateTeamParticipants db organizationId lead memberUserIds with
         | Except.error msg => (Resp.err 400 msg, db)
         | Except.ok participantIds =>
           let team : Team := ⟨newTeamId, organizationId, nm, lead⟩
           (Resp.ok 201 team,
            { db with
                teams := db.teams ++ [team]
                memberships := db.memberships.map fun m =>
                  if m.organizationId = organizationId ∧ m.userId ∈ participantIds then
                    { m with teamId := some newTeamId }
                  else m }))
    | _, _ => (Resp.err 400 "Team name and leadUserId are required", db)

/-- `updateTeam` from org.controller.ts: clears the `teamId` of the team's
previous members, then assigns the validated participants and updates the
team row. -/
def updateTeam (db : DB) (requesterUserId organizationId teamId : String)
    (name leadUserId : Option String) (memberUserIds : List String) : Resp Team × DB :=
  if ¬ requireAdmin db requesterUserId organizationId then
    (Resp.err 403 "Only admins can update teams", db)
  else
    match db.teams.find? fun tm => decide (tm.id = teamId) with
    | none => (Resp.err 404 "Team not found", db)
    | some existingTeam =>
      if existingTeam.organizationId ≠ organizationId then
        (Resp.err 404 "Team not found", db)
      else
        match leadUserId with
        | none => (Resp.err 400 "leadUserId is required", db)
        | some lead =>
          match validateTeamParticipants db organizationId lead memberUserIds with
          | Except.error msg => (Resp.err 400 msg, db)
          | Except.ok participantIds =>
            let cleared := db.memberships.map fun m =>
              if m.organizationId = organizationId ∧ m.teamId = some teamId then
                { m with teamId := none }
              else m
            let reassigned := cleared.map fun m =>
              if m.organizationId = organizationId ∧ m.userId ∈ participantIds then
                { m with teamId := some teamId }
              else m
            let updatedTeam :=
              { existingTeam with
                  name := match name with
                    | some s => if s = "" then existingTeam.name else s
                    | none => existingTeam.name
                  leadUserId := lead }
            (Resp.ok 200 updatedTeam,
             { db with
                 memberships := reassigned
                 teams := db.teams.map fun tm => if tm.id = teamId then updatedTeam else tm })

/-! ### Background purge job (task purge module) -/

/-- Retention window in days before a soft-deleted task may be hard-purged. -/
def RETENTION_DAYS : Nat := 30

/-- Batch size of the purge job's selection query. -/
def BATCH_SIZE : Nat := 50

/-- `cutoffDate()`: `Date.now() - RETENTION_DAYS` days, in milliseconds
(clamped at 0 by `Nat` subtraction for clocks inside the first 30 days
of the epoch). -/
def cutoffDate (now : Nat) : Nat := now - RETENTION_DAYS * 24 * 60 * 60 * 1000

/-- The purge-eligibility predicate `deletedAt ≤ expiresBefore` used both by
the batch selection and by the per-task re-check. -/
def expiredBy (t : Task) (expiresBefore : Nat) : Bool :=
  match t.deletedAt with
  | some d => decide (d ≤ expiresBefore)
  | none => false

/-- `purgeTaskById`: re-checks that the task still has
`deletedAt ≤ expiresBefore` (so a concurrent restore wins), then hard-deletes
its attachment rows, comment rows and the task row.  The physical files of
FILE attachments are removed through `safeDeleteFile`, modelled separately. -/
def purgeTaskById (db : DB) (taskId : String) (expiresBefore : Nat) : DB × Bool :=
  match db.tasks.find? fun t => decide (t.id = taskId) && expiredBy t expiresBefore with
  | none => (db, false)
  | some task =>
    ({ db with
        attachments := db.attachments.filter fun a => decide (¬ a.taskId = task.id)
        comments := db.comments.filter fun c => decide (¬ c.taskId = task.id)
        tasks := db.tasks.filter fun t => decide (¬ t.id = task.id) },
     true)

/-- The batch-selection query of `purgeExpiredDeletedTasks`: up to
`BATCH_SIZE` tasks with `deletedAt ≤ expiresBefore` (ordering by `deletedAt`
is omitted; no property below depends on it). -/
def selectPurgeBatch (db : DB) (expiresBefore : Nat) : List Task :=
  (db.tasks.filter fun t => expiredBy t expiresBefore).take BATCH_SIZE

/-- Purging one selected batch, task by task, counting actual removals. -/
def purgeBatchTasks (db : DB) (ids : List String) (expiresBefore : Nat) : DB × Nat :=
  ids.foldl
    (fun acc tid =>
      let r := purgeTaskById acc.1 tid expiresBefore
      (r.1, acc.2 + (if r.2 then 1 else 0)))
    (db, 0)

/-- The `while (true)` loop of `purgeExpiredDeletedTasks`, with explicit
fuel: select a batch, stop when it is empty, otherwise purge it and loop. -/
def purgeLoop : Nat → DB → Nat → DB × Nat
  | 0, db, _ => (db, 0)
  | fuel + 1, db, expiresBefore =>
    let batch := selectPurgeBatch db expiresBefore
    if batch.isEmpty then (db, 0)
    else
      let r := purgeBatchTasks db (batch.map Task.id) expiresBefore
      let rest := purgeLoop fuel r.1 expiresBefore
      (rest.1, r.2 + rest.2)

/-- `purgeExpiredDeletedTasks`: computes the 30-day cutoff once and drains
the store batch by batch.  In this sequential model every selected task is
purged, so `db.tasks.length + 1` fuel always reaches the empty batch. -/
def purgeExpiredDeletedTasks (db : DB) (now : Nat) : DB × Nat :=
  purgeLoop (db.tasks.length + 1) db (cutoffDate now)

/-! ### safeDeleteFile and the path model (task purge module)

Filesystem paths are modelled as lists of plain segments containing neither
a path separator nor `'.'`/`'..'` after resolution; `path.resolve` becomes
segment normalisation.  With that representation,
`target === root || target.startsWith(root + path.sep)` on rendered strings
is exactly "`root` is a (possibly improper) segment prefix of `target`". -/

/-- A raw path argument: absolute or relative, as unresolved segments (which
may contain `".."` and `"."`). -/
structure PathSpec where
  isAbsolute : Bool
  segments : List String
deriving Repr, DecidableEq

/-- Left-to-right normalisation of `path.resolve`: drop `"."` and empty
segments, let `".."` pop the previous segment (a no-op at the root). -/
def normalizeSegments (segs : List String) : List String :=
  segs.foldl
    (fun acc seg =>
      if seg = "." ∨ seg = "" then acc
      else if seg = ".." then acc.dropLast
      else acc ++ [seg])
    []

/-- `path.resolve(filePath)`: absolute paths are normalised as-is, relative
paths are resolved against the process working directory. -/
def resolvePath (cwd : List String) (p : PathSpec) : List String :=
  if p.isAbsolute then normalizeSegments p.segments
  else normalizeSegments (cwd ++ p.segments)

/-- The containment check of `safeDeleteFile`:
`absoluteTargetPath === uploadsRoot` or
`absoluteTargetPath.startsWith(uploadsRoot + path.sep)` (strictly inside). -/
def inUploadsDir (uploadsRoot target : List String) : Bool :=
  decide (target = uploadsRoot) ||
    (uploadsRoot.isPrefixOf target && decide (uploadsRoot.length < target.length))

/-- `safeDeleteFile`: resolve the attachment's `filePath` and unlink it only
when it stays inside the fixed uploads directory; otherwise skip it.  The
filesystem is a list of resolved paths; a missing file (`ENOENT`) is
swallowed, as in the code.  Returns the filesystem and whether an unlink was
attempted. -/
def safeDeleteFile (files : List (List String)) (cwd uploadsRoot : List String)
    (p : PathSpec) : List (List String) × Bool :=
  let absoluteTargetPath := resolvePath cwd p
  if inUploadsDir uploadsRoot absoluteTargetPath then
    (files.filter fun f => decide (¬ f = absoluteTargetPath), true)
  else
    (files, false)

/-! ### OTP signup expiry (auth.utils.ts, auth.controller.ts) -/

/-- `normalizeEmail` from auth.utils.ts:
`email.trim().toLowerCase()`, modelled on the character list (ASCII). -/
def normalizeEmail (email : String) : String :=
  String.mk
    (((email.data.dropWhile Char.isWhitespace).reverse.dropWhile
        Char.isWhitespace).reverse.map Char.toLower)

/-- `otpExpiryDate` from auth.utils.ts: 15 minutes from `now`, in
milliseconds. -/
def otpExpiryDate (now : Nat) : Nat := now + 15 * 60 * 1000

/-- `prisma.user.findUnique({ where: { email } })`. -/
def findUserByEmail (db : DB) (email : String) : Option User :=
  db.users.find? fun u => decide (u.email = email)

/-- `prisma.user.delete({ where: { id } })`. -/
def deleteUserById (db : DB) (id : String) : DB :=
  { db with users := db.users.filter fun u => decide (¬ u.id = id) }

/-- `verifyOtp` from auth.controller.ts.  The success path also marks the
user verified and attaches any pending invite membership; the latter and the
issued JWT are abstracted by the `attach` parameter and by returning the
verified user row as the payload. -/
def verifyOtp (db : DB) (email otp : Option String) (now : Nat)
    (attach : DB → String → DB) : Resp User × DB :=
  if ¬ (truthy email ∧ truthy otp) then
    (Resp.err 400 "Email and OTP are required", db)
  else
    match email, otp with
    | some e, some o =>
      (match findUserByEmail db (normalizeEmail e) with
       | none => (Resp.err 400 "User not found", db)
       | some user =>
         if user.isVerified then (Resp.err 400 "User already verified", db)
         else
           let otpInvalid : Bool :=
             !truthy user.otp || user.otpExpiresAt.isNone || decide (user.otp ≠ some o) ||
               (match user.otpExpiresAt with
                | some exp => decide (now > exp)
                | none => false)
           if otpInvalid then
             match user.otpExpiresAt with
             | some exp =>
               if now > exp then
                 (Resp.err 400 "OTP expired. Please register again.", deleteUserById db user.id)
               else (Resp.err 400 "Invalid OTP", db)
             | none => (Resp.err 400 "Invalid OTP", db)
           else
             let verifiedUser := { user with isVerified := true, otp := none, otpExpiresAt := none }
             let db' := { db with
               users := db.users.map fun u => if u.id = user.id then verifiedUser else u }
             (Resp.ok 200 verifiedUser, attach db' verifiedUser.id))
    | _, _ => (Resp.err 400 "Email and OTP are required", db)

/-- `login` from auth.controller.ts.  `checkPw` abstracts
`bcrypt.compare`; `attach` abstracts `attachInviteMembershipIfPending`; the
issued JWT is abstracted by returning the user row as the payload. -/
def login (db : DB) (email password : Option String) (now : Nat)
    (checkPw : String → String → Bool) (attach : DB → String → DB) : Resp User × DB :=
  if ¬ (truthy email ∧ truthy password) then
    (Resp.err 400 "Email and password are required", db)
  else
    match email, password with
    | some e, some pw =>
      (match findUserByEmail db (normalizeEmail e) with
       | none => (Resp.err 401 "Invalid credentials", db)
       | some user =>
         if ¬ user.isVerified then
           match user.otpExpiresAt with
           | some exp =>
             if now > exp then
               (Resp.err 400 "Registration expired. Please sign up again.", deleteUserById db user.id)
             else (Resp.err 401 "Please verify your email first.", db)
           | none => (Resp.err 401 "Please verify your email first.", db)
         else if ¬ checkPw pw user.passwordHash then
           (Resp.err 401 "Invalid credentials", db)
         else
           (Resp.ok 200 user, attach db user.id))
    | _, _ => (Resp.err 400 "Email and password are required", db)

/-! ### Concrete fixture data

A small organization `"o"` with one admin, one team lead, one member, one
team, one tag, one active task assigned to the member and one soft-deleted
task.  Used to instantiate witnesses and counterexamples. -/

/-- Fixture organization. -/
def orgO : Organization := ⟨"o", "Org", "org"⟩

/-- Fixture admin membership. -/
def memAdmin : Membership := ⟨"mA", "a", "o", Role.ADMIN, none⟩

/-- Fixture team-lead membership (leads team `"T"`). -/
def memLead : Membership := ⟨"mL", "l", "o", Role.TEAM_LEAD, some "T"⟩

/-- Fixture member membership (in team `"T"`). -/
def memMember : Membership := ⟨"mM", "m", "o", Role.MEMBER, some "T"⟩

/-- Fixture team, led by user `"l"`. -/
def teamT : Team := ⟨"T", "o", "Team", "l"⟩

/-- Fixture tag. -/
def tagG : Tag := ⟨"g", "o", "General"⟩

/-- Fixture active task assigned to user `"m"`. -/
def taskX : Task :=
  ⟨"x", "o", "X", none, TaskStatus.CREATED, some "m", none, some "g", "LOW", none, none, none⟩

/-- Fixture soft-deleted task (deleted at time 5 by the admin). -/
def taskDel : Task :=
  ⟨"xd", "o", "XD", none, TaskStatus.CREATED, some "m", none, some "g", "LOW", none, some 5,
    some "a"⟩

/-- Fixture store. -/
def dbW : DB :=
  ⟨[], [orgO], [memAdmin, memLead, memMember], [teamT], [taskX, taskDel], [⟨"x", "T"⟩], [],
    [], [tagG]⟩

/-! ### Claim C2 — soft delete gates all further mutation -/

/-- The handler rejected with some 400 response and left the store
unchanged. -/
def err400Unchanged {α : Type} (r : Resp α × DB) (db : DB) : Prop :=
  r.2 = db ∧ ∃ msg, r.1 = Resp.err 400 msg

/-- C2: once a task's `deletedAt` is set, every further mutation of that
task — `updateTask` (including status changes), `addComment`,
`uploadAttachment`, `addLinkAttachment`, `deleteComment` and
`deleteAttachment` — returns a 400 error and leaves the store (task,
comments and attachments included) unchanged. -/
theorem deleted_task_blocks_all_mutation
    (db : DB) (userId id : String) (task : Task) (d : Nat)
    (hfind : db.tasks.find? (fun t => decide (t.id = id)) = some task)
    (hdel : task.deletedAt = some d) :
    (∀ b, updateTask db userId id b = (Resp.err 400 "Task is in Recently Deleted", db)) ∧
    (∀ content newId, err400Unchanged (addComment db userId id content newId) db) ∧
    (∀ file newId, err400Unchanged (uploadAttachment db userId id file newId) db) ∧
    (∀ url fn newId, err400Unchanged (addLinkAttachment db userId id url fn newId) db) ∧
    (∀ commentId comment,
      db.comments.find? (fun c => decide (c.id = commentId)) = some comment →
      comment.taskId = id →
      deleteComment db userId commentId = (Resp.err 400 "Task is in Recently Deleted", db)) ∧
    (∀ attachmentId attachment,
      db.attachments.find? (fun a => decide (a.id = attachmentId)) = some attachment →
      attachment.taskId = id →
      deleteAttachment db userId attachmentId =
        (Resp.err 400 "Task is in Recently Deleted", db)) := by
  have hact : ensureTaskIsActive task = false := by
    simp [ensureTaskIsActive, hdel]
  refine ⟨?_, ?_, ?_, ?_, ?_, ?_⟩
  · intro b
    simp [updateTask, hfind, hact]
  · intro content newId
    by_cases hc : truthy content = true
    · simp [addComment, hc, hfind, hact, err400Unchanged]
    · simp [addComment, hc, err400Unchanged]
  · intro file newId
    cases file with
    | none => simp [uploadAttachment, err400Unchanged]
    | some f => simp [uploadAttachment, hfind, hact, err400Unchanged]
  · intro url fn newId
    by_cases hu : truthy url = true
    · simp [addLinkAttachment, hu, hfind, hact, err400Unchanged]
    · simp [addLinkAttachment, hu, err400Unchanged]
  · intro commentId comment hc htid
    simp [deleteComment, hc, htid, hfind, hact]
  · intro attachmentId attachment ha htid
    simp [deleteAttachment, ha, htid, hfind, hact]

/-- C2 witness: the fixture's soft-deleted task rejects a status update, a
comment, both attachment kinds, and comment/attachment deletion. -/
theorem deleted_task_blocks_all_mutation_witness :
    updateTask dbW "a" "xd"
        ⟨none, none, some TaskStatus.COMPLETED, none, none, none, none, none⟩ =
      (Resp.err 400 "Task is in Recently Deleted", dbW) ∧
    err400Unchanged (addComment dbW "a" "xd" (some "hi") "c9") dbW := by
  have h := deleted_task_blocks_all_mutation dbW "a" "xd" taskDel 5 (by decide) (by decide)
  exact ⟨h.1 _, h.2.1 _ _⟩

/-! ### Claim C4 — absent membership means access denied -/

/-- C4: organization-scoped operations (`getTaskById`, `createTask`,
`addComment`, `getOrgById`) return a 403 access-denied error and change no
state when the caller has no `OrganizationMember` record for the
organization in question (for the task-scoped handlers this is the point
reached once the request is otherwise well-formed and the task active). -/
theorem missing_membership_denies_access (db : DB) (userId : String) :
    (∀ id task,
      db.tasks.find? (fun t => decide (t.id = id)) = some task →
      task.deletedAt = none →
      findMembership db userId task.organizationId = none →
      getTaskById db userId id = (Resp.err 403 "Access denied", db)) ∧
    (∀ b orgId aid newId,
      b.organizationId = some orgId → orgId ≠ "" →
      truthy b.title = true → truthy b.tagId = true →
      normEmpty b.assigneeId = some aid → aid ≠ "" →
      findMembership db userId orgId = none →
      createTask db userId b newId = (Resp.err 403 "Access denied", db)) ∧
    (∀ id task content newId,
      truthy content = true →
      db.tasks.find? (fun t => decide (t.id = id)) = some task →
      task.deletedAt = none →
      findMembership db userId task.organizationId = none →
      addComment db userId id content newId = (Resp.err 403 "Access denied", db)) ∧
    (∀ orgId,
      getMembership db userId orgId = none →
      getOrgById db userId orgId = (Resp.err 403 "Access denied", db)) := by
  refine ⟨?_, ?_, ?_, ?_⟩
  · intro id task hfind hact hmem
    simp [getTaskById, hfind, hact, hmem]
  · intro b orgId aid newId horg horg' htitle htag haid haid' hmem
    have htag' : ∃ tg, b.tagId = some tg ∧ tg ≠ "" := by
      cases h : b.tagId with
      | none => rw [h] at htag; simp [truthy] at htag
      | some tg =>
        refine ⟨tg, rfl, ?_⟩
        rw [h] at htag
        simpa [truthy] using htag
    obtain ⟨tg, htg, htg'⟩ := htag'
    have h1 : truthy b.organizationId = true := by
      rw [horg]; simpa [truthy] using horg'
    have h2 : truthy (normEmpty b.assigneeId) = true := by
      rw [haid]; simpa [truthy] using haid'
    simp [createTask, horg, htg, haid, htitle, htag, h1, h2, hmem, truthy, horg', htg', haid']
    simpa [truthy] using htitle
  · intro id task content newId hc hfind hact hmem
    simp [addComment, hc, hfind, ensureTaskIsActive, hact, hmem]
  · intro orgId hmem
    simp [getOrgById, hmem]

/-- C4 witness: a stranger `"z"` with no membership in organization `"o"`
is denied by all four fixture operations. -/
theorem missing_membership_denies_access_witness :
    getTaskById dbW "z" "x" = (Resp.err 403 "Access denied", dbW) ∧
    createTask dbW "z" ⟨some "t", none, some "o", some "m", none, none, none, some "g"⟩ "n1" =
      (Resp.err 403 "Access denied", dbW) ∧
    addComment dbW "z" "x" (some "hi") "c1" = (Resp.err 403 "Access denied", dbW) ∧
    getOrgById dbW "z" "o" = (Resp.err 403 "Access denied", dbW) := by
  have h := missing_membership_denies_access dbW "z"
  exact ⟨h.1 "x" taskX (by decide) (by decide) (by decide),
         h.2.1 _ "o" "m" "n1" rfl (by decide) (by decide) (by decide) (by decide) (by decide)
           (by decide),
         h.2.2.1 "x" taskX (some "hi") "c1" (by decide) (by decide) (by decide) (by decide),
         h.2.2.2 "o" (by decide)⟩

/-! ### Claim C10 — viewing soft-deleted tasks is ADMIN-only -/

/-- C10: `getTasks` with `view='deleted'` and an `organizationId` returns
403 for a caller who is not an ADMIN of that organization (including a
caller with no membership at all), and with no `organizationId` it returns
only tasks from organizations where the caller's role is ADMIN, each with a
non-null `deletedAt`. -/
theorem deleted_view_admin_only (db : DB) (userId : String) :
    (∀ q orgId m,
      q.organizationId = some orgId → orgId ≠ "" →
      resolveTaskView q.view = TaskView.deleted →
      findMembership db userId orgId = some m → m.role ≠ Role.ADMIN →
      getTasks db userId q = Resp.err 403 "Only admins can view recently deleted tasks") ∧
    (∀ q orgId,
      q.organizationId = some orgId → orgId ≠ "" →
      findMembership db userId orgId = none →
      getTasks db userId q = Resp.err 403 "Access denied") ∧
    (∀ q t l,
      q.organizationId = none →
      resolveTaskView q.view = TaskView.deleted →
      getTasks db userId q = Resp.ok 200 l → t ∈ l →
      t.deletedAt ≠ none ∧
        ∃ m ∈ db.memberships,
          m.userId = userId ∧ m.role = Role.ADMIN ∧ m.organizationId = t.organizationId) := by
  refine ⟨?_, ?_, ?_⟩
  · intro q orgId m horg horgne hview hmem hrole
    simp [getTasks, horg, horgne, hview, hmem, hrole]
  · intro q orgId horg horgne hmem
    simp [getTasks, horg, horgne, hmem]
  · intro q t l horg hview hok ht
    rw [getTasks, horg, hview] at hok
    rw [getTasksAllOrgs] at hok
    simp only [Resp.ok.injEq, Nat.succ.injEq] at hok
    obtain ⟨-, hl⟩ := hok
    rw [← hl] at ht
    rw [List.mem_filter] at ht
    obtain ⟨htasks, hcond⟩ := ht
    simp only [Bool.and_eq_true, List.any_eq_true, List.mem_filter,
      decide_eq_true_eq] at hcond
    obtain ⟨⟨⟨⟨m, ⟨⟨hm, hmu⟩, hma⟩, hmo⟩, hvf⟩, -⟩, -⟩ := hcond
    refine ⟨?_, m, hm, hmu, hma, hmo⟩
    simp only [viewFilter] at hvf
    exact Option.isSome_iff_ne_none.mp hvf

/-- C10 witness: the fixture team lead is denied the deleted view of
organization `"o"`, and the cross-organization deleted view of the fixture
admin contains only the soft-deleted task of their organization. -/
theorem deleted_view_admin_only_witness :
    getTasks dbW "l" ⟨some "o", none, none, some "deleted"⟩ =
      Resp.err 403 "Only admins can view recently deleted tasks" ∧
    (taskDel.deletedAt ≠ none ∧
      ∃ m ∈ dbW.memberships,
        m.userId = "a" ∧ m.role = Role.ADMIN ∧ m.organizationId = taskDel.organizationId) := by
  have h := deleted_view_admin_only dbW "l"
  have h2 := deleted_view_admin_only dbW "a"
  refine ⟨h.1 ⟨some "o", none, none, some "deleted"⟩ "o" memLead rfl (by decide) (by decide)
      (by decide) (by decide), ?_⟩
  exact h2.2.2 ⟨none, none, none, some "deleted"⟩ taskDel [taskDel] rfl (by decide) (by decide)
    (by decide)

/-! ### Claim C7 — safeDeleteFile never escapes the uploads directory -/

/-- C7: `safeDeleteFile` unlinks a file only when its resolved absolute
path equals the uploads root or lies strictly inside it; any `filePath`
resolving outside the uploads directory (e.g. via `'..'` segments or an
absolute path elsewhere) is skipped and the filesystem is unchanged. -/
theorem safeDeleteFile_confined_to_uploads
    (files : List (List String)) (cwd uploadsRoot : List String) (p : PathSpec) :
    ((safeDeleteFile files cwd uploadsRoot p).2 = true →
      resolvePath cwd p = uploadsRoot ∨
        (uploadsRoot <+: resolvePath cwd p ∧
          uploadsRoot.length < (resolvePath cwd p).length)) ∧
    (¬ (resolvePath cwd p = uploadsRoot ∨
          (uploadsRoot <+: resolvePath cwd p ∧
            uploadsRoot.length < (resolvePath cwd p).length)) →
      safeDeleteFile files cwd uploadsRoot p = (files, false)) := by
  have hiff : inUploadsDir uploadsRoot (resolvePath cwd p) = true ↔
      (resolvePath cwd p = uploadsRoot ∨
        (uploadsRoot <+: resolvePath cwd p ∧
          uploadsRoot.length < (resolvePath cwd p).length)) := by
    simp [inUploadsDir, List.isPrefixOf_iff_prefix]
  constructor
  · intro hdel
    rw [safeDeleteFile] at hdel
    by_cases h : inUploadsDir uploadsRoot (resolvePath cwd p) = true
    · exact hiff.mp h
    · simp [h] at hdel
  · intro hout
    have h : inUploadsDir uploadsRoot (resolvePath cwd p) = false := by
      rcases Bool.eq_false_or_eq_true (inUploadsDir uploadsRoot (resolvePath cwd p)) with h | h
      · exact absurd (hiff.mp h) hout
      · exact h
    simp [safeDeleteFile, h]

/-- C7 witness: a traversal path `uploads/../secret` under the uploads root
resolves outside it and is skipped, leaving the filesystem unchanged. -/
theorem safeDeleteFile_confined_to_uploads_witness :
    safeDeleteFile [["app", "server", "secret"]] ["app", "server"]
        ["app", "server", "uploads"]
        ⟨true, ["app", "server", "uploads", "..", "secret"]⟩ =
      ([["app", "server", "secret"]], false) :=
  (safeDeleteFile_confined_to_uploads [["app", "server", "secret"]] ["app", "server"]
      ["app", "server", "uploads"]
      ⟨true, ["app", "server", "uploads", "..", "secret"]⟩).2 (by decide)

/-! ### Claim C8 — OTP expiry deletes the unverified signup row -/

/-- C8: an OTP issued at time `t` expires exactly 15 minutes later
(`otpExpiryDate t = t + 15·60·1000` ms); once that moment has passed, both
`verifyOtp` and `login` on the unverified user delete the user row and fail
with a 400, while a login at or before the expiry instant keeps the row
(failing 401 unverified instead). -/
theorem otp_expiry_deletes_unverified_user
    (db : DB) (e o pw : String) (user : User) (t now : Nat)
    (attach : DB → String → DB) (checkPw : String → String → Bool)
    (he : e ≠ "") (ho : o ≠ "") (hpw : pw ≠ "")
    (hfind : findUserByEmail db (normalizeEmail e) = some user)
    (hver : user.isVerified = false)
    (hexp : user.otpExpiresAt = some (otpExpiryDate t)) :
    otpExpiryDate t = t + 15 * 60 * 1000 ∧
    (otpExpiryDate t < now →
      verifyOtp db (some e) (some o) now attach =
        (Resp.err 400 "OTP expired. Please register again.", deleteUserById db user.id)) ∧
    (otpExpiryDate t < now →
      login db (some e) (some pw) now checkPw attach =
        (Resp.err 400 "Registration expired. Please sign up again.", deleteUserById db user.id)) ∧
    (now ≤ otpExpiryDate t →
      login db (some e) (some pw) now checkPw attach =
        (Resp.err 401 "Please verify your email first.", db)) := by
  refine ⟨rfl, ?_, ?_, ?_⟩
  · intro hlt
    have hinv : (!truthy user.otp || user.otpExpiresAt.isNone || decide (user.otp ≠ some o) ||
        match user.otpExpiresAt with
        | some exp => decide (now > exp)
        | none => false) = true := by
      rw [hexp]
      simp [Nat.lt_iff_add_one_le.mp hlt, hlt]
    simp [verifyOtp, truthy, he, ho, hfind, hver, hinv, hexp, hlt]
  · intro hlt
    simp [login, truthy, he, hpw, hfind, hver, hexp, hlt]
  · intro hle
    simp [login, truthy, he, hpw, hfind, hver, hexp, Nat.not_lt.mpr hle]

/-- C8 witness: a user whose OTP was issued at time 1000 is deleted when
verification is attempted one millisecond after the 15-minute expiry, and
kept when logging in exactly at the expiry instant. -/
theorem otp_expiry_deletes_unverified_user_witness :
    verifyOtp ⟨[⟨"u8", "a@b.co", none, "h", false, some "123456",
          some (otpExpiryDate 1000)⟩], [], [], [], [], [], [], [], []⟩
        (some "a@b.co") (some "999999") (otpExpiryDate 1000 + 1) (fun d _ => d) =
      (Resp.err 400 "OTP expired. Please register again.",
        ⟨[], [], [], [], [], [], [], [], []⟩) ∧
    login ⟨[⟨"u8", "a@b.co", none, "h", false, some "123456",
          some (otpExpiryDate 1000)⟩], [], [], [], [], [], [], [], []⟩
        (some "a@b.co") (some "pw") (otpExpiryDate 1000) (fun _ _ => true) (fun d _ => d) =
      (Resp.err 401 "Please verify your email first.",
        ⟨[⟨"u8", "a@b.co", none, "h", false, some "123456",
          some (otpExpiryDate 1000)⟩], [], [], [], [], [], [], [], []⟩) := by
  have h := otp_expiry_deletes_unverified_user
    ⟨[⟨"u8", "a@b.co", none, "h", false, some "123456", some (otpExpiryDate 1000)⟩],
      [], [], [], [], [], [], [], []⟩
    "a@b.co" "999999" "pw"
    ⟨"u8", "a@b.co", none, "h", false, some "123456", some (otpExpiryDate 1000)⟩
    1000 (otpExpiryDate 1000 + 1) (fun d _ => d) (fun _ _ => true)
    (by decide) (by decide) (by decide) (by decide) (by decide) (by decide)
  have h2 := otp_expiry_deletes_unverified_user
    ⟨[⟨"u8", "a@b.co", none, "h", false, some "123456", some (otpExpiryDate 1000)⟩],
      [], [], [], [], [], [], [], []⟩
    "a@b.co" "999999" "pw"
    ⟨"u8", "a@b.co", none, "h", false, some "123456", some (otpExpiryDate 1000)⟩
    1000 (otpExpiryDate 1000) (fun d _ => d) (fun _ _ => true)
    (by decide) (by decide) (by decide) (by decide) (by decide) (by decide)
  refine ⟨?_, ?_⟩
  · have := h.2.1 (Nat.lt_succ_self _)
    simpa [deleteUserById] using this
  · exact h2.2.2.2 (Nat.le_refl _)

/-! ### Claim C9 — restore after delete is the identity -/

/-- Mapping a function over a list is the identity when it fixes every
element. -/
theorem map_eq_self_of_fix {α : Type} (l : List α) (f : α → α) (h : ∀ a ∈ l, f a = a) :
    l.map f = l := by
  induction l with
  | nil => rfl
  | cons x xs ih =>
    simp only [List.map_cons, h x (List.mem_cons_self x xs)]
    rw [ih fun a ha => h a (List.mem_cons_of_mem x ha)]

/-- `find?` by task id commutes with an id-preserving row update. -/
theorem find?_id_map (l : List Task) (f : Task → Task) (tid : String)
    (hf : ∀ t, (f t).id = t.id) :
    (l.map f).find? (fun t => decide (t.id = tid)) =
      (l.find? fun t => decide (t.id = tid)).map f := by
  induction l with
  | nil => rfl
  | cons x xs ih =>
    by_cases h : x.id = tid
    · rw [List.map_cons, List.find?_cons_of_pos, List.find?_cons_of_pos]
      · rfl
      · simpa using h
      · simpa [hf] using h
    · rw [List.map_cons, List.find?_cons_of_neg, List.find?_cons_of_neg, ih]
      · simpa using h
      · simpa [hf] using h

/-- Role lookups only read the membership table, so replacing the task
table leaves them unchanged. -/
theorem requireAdmin_tasks_irrel (db : DB) (ts : List Task) (u o : String) :
    requireAdmin { db with tasks := ts } u o = requireAdmin db u o := rfl

/-- C9: on an active task (with a clear `deletedById`, as every active task
has), an admin `deleteTask` sets exactly `deletedAt := now` and
`deletedById := caller` on that task row and touches nothing else, and a
subsequent admin `restoreTask` returns the original task and restores the
store to exactly its pre-delete state. -/
theorem delete_then_restore_roundtrip
    (db : DB) (caller caller2 tid : String) (task : Task) (now : Nat)
    (hnd : (db.tasks.map Task.id).Nodup)
    (hfind : db.tasks.find? (fun t => decide (t.id = tid)) = some task)
    (hact : task.deletedAt = none)
    (hdb : task.deletedById = none)
    (hadm : requireAdmin db caller task.organizationId = true)
    (hadm2 : requireAdmin db caller2 task.organizationId = true) :
    deleteTask db caller tid now =
      (Resp.ok 200 "Task moved to Recently Deleted",
        { db with
            tasks := db.tasks.map fun t =>
              if t.id = tid then { t with deletedAt := some now, deletedById := some caller }
              else t }) ∧
    restoreTask (deleteTask db caller tid now).2 caller2 tid = (Resp.ok 200 task, db) := by
  have hdel : deleteTask db caller tid now =
      (Resp.ok 200 "Task moved to Recently Deleted",
        { db with
            tasks := db.tasks.map fun t =>
              if t.id = tid then { t with deletedAt := some now, deletedById := some caller }
              else t }) := by
    simp [deleteTask, hfind, hadm, hact]
  refine ⟨hdel, ?_⟩
  rw [hdel]
  have htid : task.id = tid := by simpa using List.find?_some hfind
  have hmem : task ∈ db.tasks := List.mem_of_find?_eq_some hfind
  have huniq : ∀ t ∈ db.tasks, t.id = tid → t = task := by
    intro t ht h
    exact List.inj_on_of_nodup_map hnd ht hmem (by rw [h, htid])
  have hfind1 :
      (db.tasks.map fun t =>
          if t.id = tid then { t with deletedAt := some now, deletedById := some caller }
          else t).find? (fun t => decide (t.id = tid)) =
        some { task with deletedAt := some now, deletedById := some caller } := by
    rw [find?_id_map]
    · rw [hfind]
      simp [htid]
    · intro t
      by_cases h : t.id = tid <;> simp [h]
  rw [restoreTask]
  rw [hfind1]
  have hro : ({ task with deletedAt := some now, deletedById := some caller} : Task
      ).organizationId = task.organizationId := rfl
  simp only [hro, requireAdmin_tasks_irrel, hadm2]
  have hback : (({ task with deletedAt := some now, deletedById := some caller} : Task).deletedAt
      ).isNone = false := rfl
  have htask : ({ task with deletedAt := none, deletedById := none } : Task) = task := by
    cases task
    simp only [Task.mk.injEq] at hact hdb ⊢
    simp_all
  have hmap :
      ((db.tasks.map fun t =>
          if t.id = tid then { t with deletedAt := some now, deletedById := some caller }
          else t).map fun t =>
            if t.id = tid then { t with deletedAt := none, deletedById := none } else t) =
        db.tasks := by
    rw [List.map_map]
    apply map_eq_self_of_fix
    intro a ha
    by_cases h : a.id = tid
    · have heq : a = task := huniq a ha h
      subst heq
      simp only [Function.comp]
      rw [if_pos h]
      have hid2 : ({ a with deletedAt := some now, deletedById := some caller } : Task).id =
          tid := h
      rw [if_pos hid2]
      exact htask
    · simp [Function.comp, h]
  simp only [hback, Bool.false_eq_true, if_false, ite_false]
  simp [hmap, htask]

/-- C9 witness: deleting and restoring the fixture's active task by the
fixture admin is the identity on the store. -/
theorem delete_then_restore_roundtrip_witness :
    deleteTask dbW "a" "x" 42 =
      (Resp.ok 200 "Task moved to Recently Deleted",
        { dbW with
            tasks := dbW.tasks.map fun t =>
              if t.id = "x" then { t with deletedAt := some 42, deletedById := some "a" }
              else t }) ∧
    restoreTask (deleteTask dbW "a" "x" 42).2 "a" "x" = (Resp.ok 200 taskX, dbW) :=
  delete_then_restore_roundtrip dbW "a" "a" "x" taskX 42 (by decide) (by decide) (by decide)
    (by decide) (by decide) (by decide)

/-! ### Claim C5 — the purge job respects the 30-day cutoff and re-checks -/

/-- The task table of a purge step is a sublist of the original table. -/
theorem purgeTaskById_tasks_sublist (db : DB) (tid : String) (e : Nat) :
    List.Sublist (purgeTaskById db tid e).1.tasks db.tasks := by
  rw [purgeTaskById]
  cases hf : db.tasks.find? fun t => decide (t.id = tid) && expiredBy t e with
  | none => exact List.Sublist.refl _
  | some task => exact List.filter_sublist _

/-- A purge step keeps every task that is not yet past the cutoff (given
unique task ids). -/
theorem purgeTaskById_preserves_unexpired
    (db : DB) (tid : String) (e : Nat) (t : Task)
    (hnd : (db.tasks.map Task.id).Nodup) (ht : t ∈ db.tasks)
    (hexp : expiredBy t e = false) :
    t ∈ (purgeTaskById db tid e).1.tasks := by
  rw [purgeTaskById]
  cases hf : db.tasks.find? fun t => decide (t.id = tid) && expiredBy t e with
  | none => exact ht
  | some task =>
    have hprop := List.find?_some hf
    have hmem := List.mem_of_find?_eq_some hf
    simp only [Bool.and_eq_true, decide_eq_true_eq] at hprop
    have hne : ¬ t.id = task.id := by
      intro hid
      have heq : t = task := List.inj_on_of_nodup_map hnd ht hmem hid
      rw [heq, hprop.2] at hexp
      simp at hexp
    simp only [List.mem_filter]
    exact ⟨ht, by simpa using hne⟩

/-- One batch fold of the purge job keeps every not-yet-expired task and
preserves uniqueness of task ids. -/
theorem purgeFold_preserves_unexpired (ids : List String) (e : Nat) :
    ∀ (acc : DB × Nat) (t : Task),
      (acc.1.tasks.map Task.id).Nodup → t ∈ acc.1.tasks → expiredBy t e = false →
      t ∈ (ids.foldl
            (fun acc tid =>
              let r := purgeTaskById acc.1 tid e
              (r.1, acc.2 + (if r.2 then 1 else 0)))
            acc).1.tasks ∧
        ((ids.foldl
            (fun acc tid =>
              let r := purgeTaskById acc.1 tid e
              (r.1, acc.2 + (if r.2 then 1 else 0)))
            acc).1.tasks.map Task.id).Nodup := by
  induction ids with
  | nil => intro acc t hnd ht hexp; exact ⟨ht, hnd⟩
  | cons i is ih =>
    intro acc t hnd ht hexp
    simp only [List.foldl_cons]
    have hnd' : (((purgeTaskById acc.1 i e).1.tasks).map Task.id).Nodup :=
      ((purgeTaskById_tasks_sublist acc.1 i e).map Task.id).nodup hnd
    exact ih ((purgeTaskById acc.1 i e).1, acc.2 + (if (purgeTaskById acc.1 i e).2 then 1 else 0))
      t hnd' (purgeTaskById_preserves_unexpired acc.1 i e t hnd ht hexp) hexp

/-- The purge loop keeps every not-yet-expired task. -/
theorem purgeLoop_preserves_unexpired (fuel : Nat) :
    ∀ (db : DB) (e : Nat) (t : Task),
      (db.tasks.map Task.id).Nodup → t ∈ db.tasks → expiredBy t e = false →
      t ∈ (purgeLoop fuel db e).1.tasks := by
  induction fuel with
  | zero => intro db e t _ ht _; exact ht
  | succ n ih =>
    intro db e t hnd ht hexp
    rw [purgeLoop]
    by_cases hb : (selectPurgeBatch db e).isEmpty = true
    · simpa [hb] using ht
    · simp only [hb, if_false, Bool.false_eq_true]
      have h := purgeFold_preserves_unexpired ((selectPurgeBatch db e).map Task.id) e (db, 0)
        t hnd ht hexp
      rw [purgeBatchTasks]
      exact ih _ e t h.2 h.1 hexp

/-- C5: a task is hard-purged only when its `deletedAt` is at or before the
cutoff, both at batch-selection time and at the per-task re-check inside
`purgeTaskById`; a task restored before the re-check (so `deletedAt` is
null again) is never purged, and the whole job never removes a task whose
`deletedAt` is unset or after the 30-day cutoff. -/
theorem purge_only_past_cutoff_and_never_restored (db : DB) (tid : String) (e : Nat) :
    ((purgeTaskById db tid e).2 = true →
      ∃ t ∈ db.tasks, t.id = tid ∧ expiredBy t e = true) ∧
    (∀ t ∈ selectPurgeBatch db e, t ∈ db.tasks ∧ expiredBy t e = true) ∧
    (∀ caller task,
      db.tasks.find? (fun t => decide (t.id = tid)) = some task →
      requireAdmin db caller task.organizationId = true →
      task.deletedAt.isSome = true →
      purgeTaskById (restoreTask db caller tid).2 tid e =
        ((restoreTask db caller tid).2, false)) ∧
    (∀ now t,
      (db.tasks.map Task.id).Nodup → t ∈ db.tasks →
      expiredBy t (cutoffDate now) = false →
      t ∈ (purgeExpiredDeletedTasks db now).1.tasks) := by
  refine ⟨?_, ?_, ?_, ?_⟩
  · intro hp
    rw [purgeTaskById] at hp
    cases hf : db.tasks.find? fun t => decide (t.id = tid) && expiredBy t e with
    | none => rw [hf] at hp; exact absurd hp (by simp)
    | some task =>
      have hprop := List.find?_some hf
      have hmem := List.mem_of_find?_eq_some hf
      simp only [Bool.and_eq_true, decide_eq_true_eq] at hprop
      exact ⟨task, hmem, hprop.1, hprop.2⟩
  · intro t ht
    rw [selectPurgeBatch] at ht
    have ht' := List.take_subset _ _ ht
    rw [List.mem_filter] at ht'
    exact ht'
  · intro caller task hfind hadm hdel
    have hres : (restoreTask db caller tid).2 =
        { db with
            tasks := db.tasks.map fun t =>
              if t.id = tid then { t with deletedAt := none, deletedById := none } else t } := by
      have hne : ¬ task.deletedAt = none := by
        simpa [Option.isSome_iff_ne_none] using hdel
      simp [restoreTask, hfind, hadm, hdel, hne]
    rw [hres]
    rw [purgeTaskById]
    have hnone :
        (db.tasks.map fun t =>
            if t.id = tid then { t with deletedAt := none, deletedById := none }
            else t).find? (fun t => decide (t.id = tid) && expiredBy t e) = none := by
      rw [List.find?_eq_none]
      intro x hx
      rw [List.mem_map] at hx
      obtain ⟨y, hy, hxy⟩ := hx
      by_cases h : y.id = tid
      · rw [← hxy, if_pos h]
        simp [expiredBy]
      · rw [← hxy, if_neg h]
        simp [h]
    rw [hnone]
  · intro now t hnd ht hexp
    rw [purgeExpiredDeletedTasks]
    exact purgeLoop_preserves_unexpired _ db (cutoffDate now) t hnd ht hexp

/-- C5 witness: in the fixture store (whose only deleted task was deleted
at time 5), a purge with cutoff 100 removes it, while after an admin
restore the same purge removes nothing; the fixture's active task always
survives the job. -/
theorem purge_only_past_cutoff_and_never_restored_witness :
    (∃ t ∈ dbW.tasks, t.id = "xd" ∧ expiredBy t 100 = true) ∧
    purgeTaskById (restoreTask dbW "a" "xd").2 "xd" 100 =
      ((restoreTask dbW "a" "xd").2, false) ∧
    taskX ∈ (purgeExpiredDeletedTasks dbW 100).1.tasks := by
  have h := purge_only_past_cutoff_and_never_restored dbW "xd" 100
  refine ⟨h.1 (by decide), h.2.2.1 "a" taskDel (by decide) (by decide) (by decide), ?_⟩
  exact h.2.2.2 100 taskX (by decide) (by decide) (by decide)

/-! ### Claim C3 — last-admin and leading-team-lead protection -/

/-- The organization has at least one ADMIN membership. -/
def orgHasAdmin (db : DB) (o : String) : Prop :=
  ∃ m ∈ db.memberships, m.organizationId = o ∧ m.role = Role.ADMIN

/-- Every team's lead holds the TEAM_LEAD role in the team's organization. -/
def teamLeadsHaveLeadRole (db : DB) : Prop :=
  ∀ tm ∈ db.teams, ∀ m ∈ db.memberships,
    m.userId = tm.leadUserId → m.organizationId = tm.organizationId →
    m.role = Role.TEAM_LEAD

/-- Either `updateMemberRole` rejects (store unchanged), or all its guards
passed and it rewrote exactly the target membership row. -/
theorem updateMemberRole_cases (db : DB) (requester orgId memberId : String)
    (role : Option Role) :
    (updateMemberRole db requester orgId memberId role).2 = db ∨
    ∃ r target, role = some r ∧
      db.memberships.find? (fun m => decide (m.id = memberId)) = some target ∧
      target.organizationId = orgId ∧
      ¬ (target.role = Role.ADMIN ∧ r ≠ Role.ADMIN ∧ adminCount db orgId ≤ 1) ∧
      ¬ (target.role = Role.TEAM_LEAD ∧ r ≠ Role.TEAM_LEAD ∧
          (db.teams.any fun tm =>
            decide (tm.organizationId = orgId ∧ tm.leadUserId = target.userId)) = true) ∧
      (updateMemberRole db requester orgId memberId role).2 =
        { db with
            memberships := db.memberships.map fun m =>
              if m.id = memberId then
                { m with role := r, teamId := if r = Role.ADMIN then none else m.teamId }
              else m } := by
  rcases role with _ | r
  · exact Or.inl rfl
  · rw [updateMemberRole]
    by_cases hadm : requireAdmin db requester orgId = true
    · rw [if_neg (by simp [hadm])]
      cases hfind : db.memberships.find? fun m => decide (m.id = memberId) with
      | none => exact Or.inl rfl
      | some target =>
        dsimp only
        by_cases horg : target.organizationId ≠ orgId
        · rw [if_pos horg]; exact Or.inl rfl
        · rw [if_neg horg]
          by_cases hc1 : target.role = Role.ADMIN ∧ r ≠ Role.ADMIN ∧ adminCount db orgId ≤ 1
          · rw [if_pos hc1]; exact Or.inl rfl
          · rw [if_neg hc1]
            by_cases hc2 : target.role = Role.TEAM_LEAD ∧ r ≠ Role.TEAM_LEAD ∧
                (db.teams.any fun tm =>
                  decide (tm.organizationId = orgId ∧ tm.leadUserId = target.userId)) = true
            · rw [if_pos hc2]; exact Or.inl rfl
            · rw [if_neg hc2]
              exact Or.inr ⟨r, target, rfl, rfl, not_not.mp horg, hc1, hc2, rfl⟩
    · rw [if_pos (by simp [hadm])]
      exact Or.inl rfl

/-- A list of two or more memberships with pairwise-distinct ids contains
one whose id differs from any given id. -/
theorem exists_ne_id_of_two_le_length {l : List Membership}
    (hnd : (l.map Membership.id).Nodup) (hlen : 2 ≤ l.length) (x : String) :
    ∃ b ∈ l, b.id ≠ x := by
  match l, hlen with
  | b0 :: b1 :: rest, _ =>
    by_cases h0 : b0.id = x
    · refine ⟨b1, by simp, fun h1 => ?_⟩
      rw [List.map_cons, List.map_cons, List.nodup_cons] at hnd
      exact hnd.1 (by rw [h0, ← h1]; exact List.mem_cons_self _ _)
    · exact ⟨b0, by simp, h0⟩

/-- C3: `updateMemberRole` rejects with a 400 error (store unchanged) any
demotion of an organization's only ADMIN and any role change of a
TEAM_LEAD who still leads a team; consequently the operation preserves
"every organization keeps at least one ADMIN" and "every team's lead keeps
the TEAM_LEAD role". -/
theorem updateMemberRole_protects_admin_and_lead
    (db : DB) (requester orgId memberId : String)
    (hnd : (db.memberships.map Membership.id).Nodup) :
    (∀ r target,
      requireAdmin db requester orgId = true →
      db.memberships.find? (fun m => decide (m.id = memberId)) = some target →
      target.organizationId = orgId →
      target.role = Role.ADMIN → r ≠ Role.ADMIN → adminCount db orgId ≤ 1 →
      updateMemberRole db requester orgId memberId (some r) =
        (Resp.err 400 "Cannot remove the last admin from this organization", db)) ∧
    (∀ r target,
      requireAdmin db requester orgId = true →
      db.memberships.find? (fun m => decide (m.id = memberId)) = some target →
      target.organizationId = orgId →
      target.role = Role.TEAM_LEAD → r ≠ Role.TEAM_LEAD →
      (db.teams.any fun tm =>
        decide (tm.organizationId = orgId ∧ tm.leadUserId = target.userId)) = true →
      updateMemberRole db requester orgId memberId (some r) =
        (Resp.err 400 "Reassign this team lead before changing their role", db)) ∧
    (∀ role o,
      orgHasAdmin db o →
      orgHasAdmin (updateMemberRole db requester orgId memberId role).2 o) ∧
    (∀ role,
      teamLeadsHaveLeadRole db →
      teamLeadsHaveLeadRole (updateMemberRole db requester orgId memberId role).2) := by
  refine ⟨?_, ?_, ?_, ?_⟩
  · intro r target hadm hfind horg hrole hr hcount
    rw [updateMemberRole, if_neg (by simp [hadm]), hfind]
    dsimp only
    rw [if_neg (by simp [horg]), if_pos ⟨hrole, hr, hcount⟩]
  · intro r target hadm hfind horg hrole hr hlead
    rw [updateMemberRole, if_neg (by simp [hadm]), hfind]
    dsimp only
    rw [if_neg (by simp [horg]), if_neg (by simp [hrole]), if_pos ⟨hrole, hr, hlead⟩]
  · intro role o hbefore
    rcases updateMemberRole_cases db requester orgId memberId role with heq |
      ⟨r, target, -, hfind, horg, hnadm, -, heq⟩
    · rw [heq]; exact hbefore
    · rw [heq]
      obtain ⟨a, ha, hao, har⟩ := hbefore
      have htid : target.id = memberId := by simpa using List.find?_some hfind
      have htmem : target ∈ db.memberships := List.mem_of_find?_eq_some hfind
      by_cases hr : r = Role.ADMIN
      · refine ⟨(fun m =>
          if m.id = memberId then
            { m with role := r, teamId := if r = Role.ADMIN then none else m.teamId }
          else m) a, List.mem_map_of_mem _ ha, ?_⟩
        dsimp only
        by_cases hid : a.id = memberId
        · rw [if_pos hid]; exact ⟨hao, hr⟩
        · rw [if_neg hid]; exact ⟨hao, har⟩
      · by_cases hid : a.id = memberId
        · have haeq : a = target :=
            List.inj_on_of_nodup_map hnd ha htmem (by rw [hid, htid])
          have htadm : target.role = Role.ADMIN := by rw [← haeq]; exact har
          have hcount : ¬ adminCount db orgId ≤ 1 := fun hc => hnadm ⟨htadm, hr, hc⟩
          have hoorg : o = orgId := by rw [← hao, haeq, horg]
          have hlen : 2 ≤ (db.memberships.filter fun m =>
              decide (m.organizationId = orgId ∧ m.role = Role.ADMIN)).length := by
            rw [adminCount] at hcount
            omega
          have hndf : ((db.memberships.filter fun m =>
              decide (m.organizationId = orgId ∧ m.role = Role.ADMIN)).map
                Membership.id).Nodup :=
            ((List.filter_sublist db.memberships).map Membership.id).nodup hnd
          obtain ⟨b, hb, hbid⟩ := exists_ne_id_of_two_le_length hndf hlen memberId
          rw [List.mem_filter] at hb
          obtain ⟨hbmem, hbprop⟩ := hb
          simp only [decide_eq_true_eq] at hbprop
          refine ⟨(fun m =>
            if m.id = memberId then
              { m with role := r, teamId := if r = Role.ADMIN then none else m.teamId }
            else m) b, List.mem_map_of_mem _ hbmem, ?_⟩
          dsimp only
          rw [if_neg hbid]
          exact ⟨by rw [hbprop.1, hoorg], hbprop.2⟩
        · refine ⟨(fun m =>
            if m.id = memberId then
              { m with role := r, teamId := if r = Role.ADMIN then none else m.teamId }
            else m) a, List.mem_map_of_mem _ ha, ?_⟩
          dsimp only
          rw [if_neg hid]
          exact ⟨hao, har⟩
  · intro role hbefore
    rcases updateMemberRole_cases db requester orgId memberId role with heq |
      ⟨r, target, -, hfind, horg, -, hnlead, heq⟩
    · rw [heq]; exact hbefore
    · rw [heq]
      intro tm htm m' hm' hu ho'
      have htid : target.id = memberId := by simpa using List.find?_some hfind
      have htmem : target ∈ db.memberships := List.mem_of_find?_eq_some hfind
      rw [List.mem_map] at hm'
      obtain ⟨m, hm, hmm⟩ := hm'
      by_cases hid : m.id = memberId
      · have hmeq : m = target :=
          List.inj_on_of_nodup_map hnd hm htmem (by rw [hid, htid])
        rw [if_pos hid] at hmm
        have hurole : m'.role = r := by rw [← hmm]
        have huid : target.userId = tm.leadUserId := by
          rw [← hmeq]
          rw [← hmm] at hu
          exact hu
        have horg2 : target.organizationId = tm.organizationId := by
          rw [← hmeq]
          rw [← hmm] at ho'
          exact ho'
        by_cases htl : target.role = Role.TEAM_LEAD
        · by_cases hrtl : r = Role.TEAM_LEAD
          · rw [hurole, hrtl]
          · exfalso
            apply hnlead
            refine ⟨htl, hrtl, ?_⟩
            rw [List.any_eq_true]
            exact ⟨tm, htm, by simp [← horg2, horg, huid]⟩
        · exfalso
          exact htl (hbefore tm htm target htmem huid horg2)
      · rw [if_neg hid] at hmm
        rw [← hmm]
        exact hbefore tm htm m hm (by rw [← hmm] at hu; exact hu)
          (by rw [← hmm] at ho'; exact ho')

/-- C3 witness: in the fixture organization, demoting the only admin and
demoting the team lead who still leads team `"T"` are both rejected with a
400 and leave the store unchanged, and both invariants survive an accepted
promotion of the plain member. -/
theorem updateMemberRole_protects_admin_and_lead_witness :
    updateMemberRole dbW "a" "o" "mA" (some Role.MEMBER) =
      (Resp.err 400 "Cannot remove the last admin from this organization", dbW) ∧
    updateMemberRole dbW "a" "o" "mL" (some Role.MEMBER) =
      (Resp.err 400 "Reassign this team lead before changing their role", dbW) ∧
    orgHasAdmin (updateMemberRole dbW "a" "o" "mM" (some Role.ADMIN)).2 "o" ∧
    teamLeadsHaveLeadRole (updateMemberRole dbW "a" "o" "mM" (some Role.ADMIN)).2 := by
  have h := updateMemberRole_protects_admin_and_lead dbW "a" "o" "mA" (by decide)
  have h2 := updateMemberRole_protects_admin_and_lead dbW "a" "o" "mL" (by decide)
  have h3 := updateMemberRole_protects_admin_and_lead dbW "a" "o" "mM" (by decide)
  refine ⟨h.1 Role.MEMBER memAdmin (by decide) (by decide) (by decide) (by decide) (by decide)
      (by decide),
    h2.2.1 Role.MEMBER memLead (by decide) (by decide) (by decide) (by decide) (by decide)
      (by decide),
    h3.2.2.1 (some Role.ADMIN) "o" ⟨memAdmin, by decide, by decide, by decide⟩,
    h3.2.2.2 (some Role.ADMIN) (by unfold teamLeadsHaveLeadRole; decide)⟩

/-! ### Claim C1 — role-based task visibility scope -/

/-- A task passed by a caller's active-view role filter is theirs as
assignee or supporter, or is linked to their team via `TaskTeam`. -/
theorem activeScopeFilter_spec (db : DB) (userId : String) (m : Membership) (t : Task)
    (h : activeScopeFilter db userId m t = true) :
    t.assigneeId = some userId ∨ t.supporterId = some userId ∨
      ∃ tt ∈ db.taskTeams, tt.taskId = t.id ∧ m.teamId = some tt.teamId := by
  rw [activeScopeFilter] at h
  simp only [Bool.or_eq_true, decide_eq_true_eq] at h
  rcases h with (h | h) | h
  · exact Or.inl h
  · exact Or.inr (Or.inl h)
  · cases hmt : m.teamId with
    | none => rw [hmt] at h; simp at h
    | some tid =>
      rw [hmt] at h
      rw [List.any_eq_true] at h
      obtain ⟨tt, htt, hp⟩ := h
      simp only [decide_eq_true_eq] at hp
      exact Or.inr (Or.inr ⟨tt, htt, hp.1, by rw [hp.2]⟩)

/-- Counterexample store for the cross-organization listing path: user
`"u"` is a MEMBER of `"o1"` with no team and no task of their own; the
only task belongs to someone else. -/
def c1Task : Task :=
  ⟨"t1", "o1", "T1", none, TaskStatus.CREATED, some "v", none, some "g", "LOW", none, none,
    none⟩

/-- Counterexample membership: caller `"u"` is a plain MEMBER of `"o1"`. -/
def c1Mem : Membership := ⟨"m1", "u", "o1", Role.MEMBER, none⟩

/-- Counterexample store. -/
def c1db : DB := ⟨[], [], [c1Mem], [], [c1Task], [], [], [], []⟩

/-- C1 counterexample: when no `organizationId` query parameter is given,
`getTasks` (active view) returns — and `getStats` counts — a task the
MEMBER caller is neither assignee nor supporter of and that has no
`TaskTeam` link at all, so the role filter of the claim is not applied on
this path. -/
theorem member_sees_unrelated_task_without_org_filter :
    findMembership c1db "u" "o1" = some c1Mem ∧ c1Mem.role = Role.MEMBER ∧
    getTasks c1db "u" ⟨none, none, none, none⟩ = Resp.ok 200 [c1Task] ∧
    getStats c1db "u" none = Resp.ok 200 ⟨1, 0, 0, 0, 1⟩ ∧
    c1Task.assigneeId ≠ some "u" ∧ c1Task.supporterId ≠ some "u" ∧
    c1db.taskTeams = [] := by
  refine ⟨by decide, by decide, by decide, by decide, by decide, by decide, by decide⟩

/-- C1 (amended): when `getTasks`/`getStats` are called with an
`organizationId`, a TEAM_LEAD or MEMBER caller receives (or has counted)
only active tasks of that organization where they are assignee, supporter,
or the task is linked to their team via `TaskTeam`, while an ADMIN caller
is exempt from the role filter; the cross-organization path (no
`organizationId`) applies no role filter. -/
theorem org_scoped_visibility_filter
    (db : DB) (userId orgId : String) (m : Membership) (horgne : orgId ≠ "")
    (hmem : findMembership db userId orgId = some m) :
    (∀ q l t,
      q.organizationId = some orgId → resolveTaskView q.view = TaskView.active →
      (m.role = Role.TEAM_LEAD ∨ m.role = Role.MEMBER) →
      getTasks db userId q = Resp.ok 200 l → t ∈ l →
      t.assigneeId = some userId ∨ t.supporterId = some userId ∨
        ∃ tt ∈ db.taskTeams, tt.taskId = t.id ∧ m.teamId = some tt.teamId) ∧
    (∀ q,
      q.organizationId = some orgId → resolveTaskView q.view = TaskView.active →
      m.role = Role.ADMIN →
      getTasks db userId q =
        Resp.ok 200 (db.tasks.filter fun t =>
          decide (t.organizationId = orgId) && viewFilter TaskView.active t &&
            statusFilter q TaskView.active t && assigneeFilter q t)) ∧
    (getStats db userId (some orgId) =
      Resp.ok 200 (mkStats db userId (statsWhere db userId orgId m))) ∧
    (∀ t,
      (m.role = Role.TEAM_LEAD ∨ m.role = Role.MEMBER) →
      statsWhere db userId orgId m t = true →
      t.deletedAt = none ∧ t.organizationId = orgId ∧
        (t.assigneeId = some userId ∨ t.supporterId = some userId ∨
          ∃ tt ∈ db.taskTeams, tt.taskId = t.id ∧ m.teamId = some tt.teamId)) ∧
    (∀ t,
      m.role = Role.ADMIN →
      statsWhere db userId orgId m t =
        (t.deletedAt.isNone && decide (t.organizationId = orgId))) := by
  refine ⟨?_, ?_, ?_, ?_, ?_⟩
  · intro q l t horg hview hrole hok ht
    simp only [getTasks, horg, hview, hmem, if_neg horgne, true_and] at hok
    rw [if_neg (show ¬ (TaskView.active = TaskView.deleted ∧ m.role ≠ Role.ADMIN) by simp)]
      at hok
    simp only [Resp.ok.injEq] at hok
    obtain ⟨-, hok⟩ := hok
    rw [← hok] at ht
    rw [List.mem_filter] at ht
    obtain ⟨-, hcond⟩ := ht
    simp only [Bool.and_eq_true] at hcond
    have hscope := hcond.1.1.1.2
    rw [if_pos hrole] at hscope
    exact activeScopeFilter_spec db userId m t hscope
  · intro q horg hview hadm
    simp only [getTasks, horg, hview, hmem, if_neg horgne, true_and]
    have hniff : ¬ (m.role = Role.TEAM_LEAD ∨ m.role = Role.MEMBER) := by
      simp [hadm]
    simp only [if_neg hniff, Bool.and_true]
    rw [if_neg (show ¬ (TaskView.active = TaskView.deleted ∧ m.role ≠ Role.ADMIN) by simp)]
  · simp [getStats, hmem, horgne]
  · intro t hrole hw
    rw [statsWhere, if_pos hrole] at hw
    simp only [Bool.and_eq_true, decide_eq_true_eq, Option.isNone_iff_eq_none] at hw
    exact ⟨hw.1.1, hw.1.2, activeScopeFilter_spec db userId m t hw.2⟩
  · intro t hadm
    rw [statsWhere, if_neg (by simp [hadm])]
    simp

/-- C1 witness: in the fixture organization the MEMBER caller's own list
contains only scoped tasks, and the stats equation holds for them. -/
theorem org_scoped_visibility_filter_witness :
    (taskX.assigneeId = some "m" ∨ taskX.supporterId = some "m" ∨
      ∃ tt ∈ dbW.taskTeams, tt.taskId = taskX.id ∧ memMember.teamId = some tt.teamId) ∧
    getStats dbW "m" (some "o") =
      Resp.ok 200 (mkStats dbW "m" (statsWhere dbW "m" "o" memMember)) := by
  have h := org_scoped_visibility_filter dbW "m" "o" memMember (by decide) (by decide)
  exact ⟨h.1 ⟨some "o", none, none, none⟩ [taskX] taskX rfl (by decide) (Or.inr rfl)
      (by decide) (by decide), h.2.2.1⟩

/-! ### Claim C6 — ADMINs and team/assignment hygiene -/

/-- C6 (code divergence): promoting the member `"m"` — who is the persisted
assignee of the active task `taskX` — to ADMIN succeeds: `updateMemberRole`
clears their `teamId` but neither checks nor clears their task
assignments, so afterwards an ADMIN member (belonging to no team) is still
the primary assignee of a task, violating the claimed invariant. -/
theorem promote_assignee_to_admin_keeps_assignment :
    (updateMemberRole dbW "a" "o" "mM" (some Role.ADMIN)).1 =
      Resp.ok 200 ⟨"mM", "m", "o", Role.ADMIN, none⟩ ∧
    (updateMemberRole dbW "a" "o" "mM" (some Role.ADMIN)).2.memberships =
      [memAdmin, memLead, ⟨"mM", "m", "o", Role.ADMIN, none⟩] ∧
    taskX ∈ (updateMemberRole dbW "a" "o" "mM" (some Role.ADMIN)).2.tasks ∧
    taskX.assigneeId = some "m" ∧ taskX.deletedAt = none ∧
    (∀ mm ∈ (updateMemberRole dbW "a" "o" "mM" (some Role.ADMIN)).2.memberships,
      mm.userId = "m" → mm.role = Role.ADMIN ∧ mm.teamId = none) := by
  refine ⟨by decide, by decide, by decide, by decide, by decide, by decide⟩

end Aio
